import Mathlib

/-!
Verification of the stock_tracker client scripts.

The repository contains two browser scripts:
- `static/index.js` — the sheet-list page controller: wires per-row
  click handlers, creates / syncs / deletes tracked sheets over HTTP,
  manages two notification banners, formats UTC timestamps for local
  display, and maps HTTP error statuses to user-facing actions;
- an unnamed settings script — posts the notify checkbox state and
  navigates back to the index page.

This file shallowly embeds both scripts.  DOM state is modelled as a
list of rows plus the visibility of the two banners; each jQuery
event handler becomes a pure function from the pre-state (and the
AJAX outcome, delivered by the server) to the post-state together
with the user-visible actions it performs.  `moment`-based timestamp
conversion is modelled by an explicit proleptic-Gregorian calendar
(non-negative years, which covers the 4-digit wire format
`MM-DD-YYYY HH:mm`) with the viewer's time zone given as a fixed
offset in minutes from UTC.
-/

/-! ## Calendar model for convertToLocalDateTime -/

/-- A civil (wall-clock) date: proleptic Gregorian, year ≥ 0. -/
structure CivilDate where
  year : Nat
  month : Nat
  day : Nat
deriving Repr, DecidableEq

/-- A civil date plus time of day, minute precision — exactly the
information carried by the wire format `MM-DD-YYYY HH:mm`. -/
structure CivilDateTime where
  date : CivilDate
  hour : Nat
  minute : Nat
deriving Repr, DecidableEq

/-- Gregorian leap-year rule. -/
def isLeapYear (y : Nat) : Bool :=
  (y % 4 == 0 && y % 100 != 0) || y % 400 == 0

/-- Number of days in month `m` of year `y` (months are 1-based). -/
def daysInMonth (y m : Nat) : Nat :=
  if m = 2 then (if isLeapYear y then 29 else 28)
  else if m = 4 ∨ m = 6 ∨ m = 9 ∨ m = 11 then 30
  else 31

/-- A date is valid when its month is 1–12 and its day fits the month. -/
def ValidDate (d : CivilDate) : Prop :=
  1 ≤ d.month ∧ d.month ≤ 12 ∧ 1 ≤ d.day ∧ d.day ≤ daysInMonth d.year d.month

instance (d : CivilDate) : Decidable (ValidDate d) := by
  unfold ValidDate; infer_instance

/-- A datetime is valid when its date is and the time of day is in range. -/
def ValidDT (f : CivilDateTime) : Prop :=
  ValidDate f.date ∧ f.hour ≤ 23 ∧ f.minute ≤ 59

instance (f : CivilDateTime) : Decidable (ValidDT f) := by
  unfold ValidDT; infer_instance

/-- The day after `d` in the Gregorian calendar. -/
def nextDay (d : CivilDate) : CivilDate :=
  if d.day < daysInMonth d.year d.month then { d with day := d.day + 1 }
  else if d.month < 12 then { year := d.year, month := d.month + 1, day := 1 }
  else { year := d.year + 1, month := 1, day := 1 }

/-- The day before `d`; clamps at the model's origin `0000-01-01`
(the theorems only use it away from the origin). -/
def prevDay (d : CivilDate) : CivilDate :=
  if 1 < d.day then { d with day := d.day - 1 }
  else if 1 < d.month then
    { year := d.year, month := d.month - 1, day := daysInMonth d.year (d.month - 1) }
  else if d.year = 0 then d
  else { year := d.year - 1, month := 12, day := 31 }

/-- Iterate a function `n` times. -/
def applyTimes {α : Type} (f : α → α) : Nat → α → α
  | 0, x => x
  | n + 1, x => applyTimes f n (f x)

/-- Shift a date by a (possibly negative) number of days. -/
def shiftDays (d : CivilDate) (n : Int) : CivilDate :=
  if 0 ≤ n then applyTimes nextDay n.toNat d
  else applyTimes prevDay (-n).toNat d

/-- Add a (possibly negative) number of minutes to a civil datetime,
carrying into days through the calendar.  This is the wall-clock
effect of `moment.utc(s, fmt).toDate()` followed by formatting in a
zone at a fixed `k`-minute offset from UTC. -/
def addMinutesToFields (f : CivilDateTime) (k : Int) : CivilDateTime :=
  let total : Int := ((60 * f.hour + f.minute : Nat) : Int) + k
  let rem : Int := total % 1440
  let dshift : Int := total / 1440
  { date := shiftDays f.date dshift, hour := rem.toNat / 60, minute := rem.toNat % 60 }

/-- Days before month `m` within year `y` (so `daysBeforeMonth y 13`
is the length of year `y`). -/
def daysBeforeMonth (y : Nat) : Nat → Nat
  | 0 => 0
  | 1 => 0
  | m + 2 => daysBeforeMonth y (m + 1) + daysInMonth y (m + 1)

/-- Number of days in year `y`. -/
def daysInYear (y : Nat) : Nat := daysBeforeMonth y 13

/-- Days strictly before year `y`, counted from `0000-01-01`. -/
def daysBeforeYear : Nat → Nat
  | 0 => 0
  | y + 1 => daysBeforeYear y + daysInYear y

/-- Linear day number of a date (0 for `0000-01-01`). -/
def dayNumber (d : CivilDate) : Nat :=
  daysBeforeYear d.year + daysBeforeMonth d.year d.month + (d.day - 1)

/-- Linear minute number of a civil datetime: the instant it denotes
when read as UTC, in minutes from the model's origin. -/
def minutesFromEpoch (f : CivilDateTime) : Nat :=
  1440 * dayNumber f.date + 60 * f.hour + f.minute

/-! ### Textual format `MM-DD-YYYY HH:mm` -/

/-- The decimal digit character for `n < 10`. -/
def digitChar (n : Nat) : Char := Char.ofNat (48 + n)

/-- Read a decimal digit character. -/
def digitVal (c : Char) : Option Nat :=
  if 48 ≤ c.toNat ∧ c.toNat ≤ 57 then some (c.toNat - 48) else none

/-- Parse two digit characters as a zero-padded two-digit number. -/
def parse2 (a b : Char) : Option Nat :=
  match digitVal a, digitVal b with
  | some x, some y => some (10 * x + y)
  | _, _ => none

/-- Parse four digit characters as a zero-padded four-digit number. -/
def parse4 (a b c d : Char) : Option Nat :=
  match digitVal a, digitVal b, digitVal c, digitVal d with
  | some w, some x, some y, some z => some (1000 * w + 100 * x + 10 * y + z)
  | _, _, _, _ => none

/-- Zero-padded two-digit rendering (for `MM`, `DD`, `HH`, `mm`). -/
def pad2 (n : Nat) : List Char := [digitChar (n / 10), digitChar (n % 10)]

/-- Zero-padded four-digit rendering (for `YYYY`). -/
def pad4 (n : Nat) : List Char :=
  [digitChar (n / 1000), digitChar (n / 100 % 10), digitChar (n / 10 % 10), digitChar (n % 10)]

/-- Render a civil datetime in the fixed format `MM-DD-YYYY HH:mm`,
as `moment(date).format('MM-DD-YYYY HH:mm')` does. -/
def formatFields (f : CivilDateTime) : String :=
  ⟨pad2 f.date.month ++ ['-'] ++ pad2 f.date.day ++ ['-'] ++ pad4 f.date.year
    ++ [' '] ++ pad2 f.hour ++ [':'] ++ pad2 f.minute⟩

/-- Parse a string in the fixed format `MM-DD-YYYY HH:mm`, rejecting
out-of-range fields, as `moment.utc(s, 'MM-DD-YYYY HH:mm')` marks
out-of-range fields invalid. -/
def parseDateTime (s : String) : Option CivilDateTime :=
  match s.data with
  | [m1, m2, s1, d1, d2, s2, y1, y2, y3, y4, s3, h1, h2, s4, n1, n2] =>
    if s1 = '-' ∧ s2 = '-' ∧ s3 = ' ' ∧ s4 = ':' then
      match parse2 m1 m2, parse2 d1 d2, parse4 y1 y2 y3 y4, parse2 h1 h2, parse2 n1 n2 with
      | some mo, some da, some yr, some ho, some mi =>
        if 1 ≤ mo ∧ mo ≤ 12 ∧ 1 ≤ da ∧ da ≤ daysInMonth yr mo ∧ ho ≤ 23 ∧ mi ≤ 59 then
          some ⟨⟨yr, mo, da⟩, ho, mi⟩
        else none
      | _, _, _, _, _ => none
    else none
  | _ => none

/-- A string carries no time-zone marker when it consists only of
decimal digits and the format separators `-`, ` `, `:`. -/
def hasNoTzMarker (s : String) : Bool :=
  s.data.all fun c => (48 ≤ c.toNat && c.toNat ≤ 57) || c = '-' || c = ' ' || c = ':'

/-- `convertToLocalDateTime` from `static/index.js`: parse the string
in the fixed format as UTC and render the same instant in the
viewer's local zone (modelled as a fixed offset of
`tzOffsetMinutes` from UTC) in the same format.  An unparsable
string yields moment's `Invalid date` rendering. -/
def convertToLocalDateTime (tzOffsetMinutes : Int) (old_s : String) : String :=
  match parseDateTime old_s with
  | none => "Invalid date"
  | some f => formatFields (addMinutesToFields f tzOffsetMinutes)

/-! ## Sheet-list page model (`static/index.js`) -/

/-- One `<tr>` of the sheets table: its `ssheet-id` attribute, the
text of its `.sheet-title` cell, the text of its `.utc-datetime`
cell, and whether its per-row click handlers have been wired. -/
structure Row where
  ssheetId : String
  sheetTitle : String
  utcDatetimeText : String
  wired : Bool
deriving Repr, DecidableEq

/-- The DOM state the script manipulates: the table rows in order and
the visibility of the two notification banners. -/
structure PageState where
  rows : List Row
  notificationAdd : Bool
  notificationEditSync : Bool
deriving Repr, DecidableEq

/-- A user-visible action taken by `informUserOfSheetAccessError`. -/
inductive UserEvent
  | reloadPage
  | alertMessage (msg : String)
deriving Repr, DecidableEq

/-- `informUserOfSheetAccessError` from `static/index.js`. -/
def informUserOfSheetAccessError (statusCode : Nat) : UserEvent :=
  if statusCode = 401 then UserEvent.reloadPage
  else
    let message := "Could not perform operation."
    let message :=
      if statusCode = 403 then "You are not authorized to modify this sheet."
      else if statusCode = 404 then "Sheet was not found."
      else if statusCode = 400 then
        "Sheet formatted incorrectly. Make sure there are no blank rows and the first row is a header."
      else message
    UserEvent.alertMessage message

/-- `processNotificationsOnLoadOnDelete` from `static/index.js`:
show the add banner when the table has no rows; touch nothing else. -/
def processNotificationsOnLoadOnDelete (s : PageState) : PageState :=
  let rowCount := s.rows.length
  if rowCount = 0 then { s with notificationAdd := true } else s

/-- `processNotificationsOnCreate` from `static/index.js`: show the
edit/sync banner iff exactly one row exists, and hide the add banner. -/
def processNotificationsOnCreate (s : PageState) : PageState :=
  let rowCount := s.rows.length
  let s :=
    if rowCount = 1 then { s with notificationEditSync := true }
    else { s with notificationEditSync := false }
  { s with notificationAdd := false }

/-- `processNotificationsOnSync` from `static/index.js`: hide the
edit/sync banner unconditionally. -/
def processNotificationsOnSync (s : PageState) : PageState :=
  { s with notificationEditSync := false }

/-- `$(row).find('.utc-datetime').text(updateDateTimes)`: rewrite a
row's timestamp cell through `convertToLocalDateTime`. -/
def formatRowDatetime (tz : Int) (r : Row) : Row :=
  { r with utcDatetimeText := convertToLocalDateTime tz r.utcDatetimeText }

/-- `wireRowClickHandlers` from `static/index.js`, restricted to one
row: attach the visit/sync/delete click handlers. -/
def wireRowClickHandlers (r : Row) : Row := { r with wired := true }

/-- Outcome of a jQuery `$.ajax` call: the success callback receives
the parsed response `data`, the error callback the HTTP status. -/
inductive AjaxOutcome (α : Type)
  | success (data : α)
  | failure (status : Nat)

/-- Success payload of the create endpoint: `row_to_insert` is the
pre-rendered row markup (it arrives unwired, its timestamp cell
holding the raw UTC text). -/
structure CreateResponse where
  row_to_insert : Row

/-- Success payload of the sync endpoint: a `datetime` field and an
optional `title` field. -/
structure SyncResponse where
  datetime : String
  title : Option String

/-- Replace the element at index `i` by `f` of it; out-of-range
indices leave the list unchanged. -/
def updateAt {α : Type} : List α → Nat → (α → α) → List α
  | [], _, _ => []
  | x :: xs, 0, f => f x :: xs
  | x :: xs, n + 1, f => x :: updateAt xs n f

/-- Remove the element at index `i`; out-of-range indices leave the
list unchanged. -/
def removeAt {α : Type} : List α → Nat → List α
  | [], _ => []
  | _ :: xs, 0 => xs
  | x :: xs, n + 1 => x :: removeAt xs n

/-- `createOnClick` from `static/index.js`, given the AJAX outcome:
on success append the pre-rendered row, format its timestamp, wire
its handlers, and run the create banner routine; on failure report
the access error and change nothing. -/
def createOnClick (tz : Int) (s : PageState) (outcome : AjaxOutcome CreateResponse) :
    PageState × Option UserEvent :=
  match outcome with
  | AjaxOutcome.success data =>
    let row := data.row_to_insert
    let row := formatRowDatetime tz row
    let row := wireRowClickHandlers row
    (processNotificationsOnCreate { s with rows := s.rows ++ [row] }, none)
  | AjaxOutcome.failure status => (s, some (informUserOfSheetAccessError status))

/-- The in-place update `syncSheetOnClick` applies to the clicked row
on success: set the timestamp cell to the local-converted response
datetime, and the title cell iff the response carries `title`. -/
def updateRowOnSync (tz : Int) (data : SyncResponse) (r : Row) : Row :=
  let r := { r with utcDatetimeText := convertToLocalDateTime tz data.datetime }
  match data.title with
  | some t => { r with sheetTitle := t }
  | none => r

/-- `syncSheetOnClick` from `static/index.js` for the row at index
`i`, given the AJAX outcome. -/
def syncSheetOnClick (tz : Int) (s : PageState) (i : Nat)
    (outcome : AjaxOutcome SyncResponse) : PageState × Option UserEvent :=
  match outcome with
  | AjaxOutcome.success data =>
    (processNotificationsOnSync { s with rows := updateAt s.rows i (updateRowOnSync tz data) },
      none)
  | AjaxOutcome.failure status => (s, some (informUserOfSheetAccessError status))

/-- `deleteSheetOnClick` from `static/index.js` for the row at index
`i`, given the AJAX outcome (the success body is ignored). -/
def deleteSheetOnClick (s : PageState) (i : Nat) (outcome : AjaxOutcome Unit) :
    PageState × Option UserEvent :=
  match outcome with
  | AjaxOutcome.success _ =>
    (processNotificationsOnLoadOnDelete { s with rows := removeAt s.rows i }, none)
  | AjaxOutcome.failure status => (s, some (informUserOfSheetAccessError status))

/-- Modelled from the spec: the initial markup is produced by the
server-side template (external rendering layer, not under `src/`),
which renders the table rows and both notification banners hidden;
the scripts alone show or hide the banners afterwards. -/
def initialState (rows : List Row) : PageState :=
  { rows := rows, notificationAdd := false, notificationEditSync := false }

/-- The `$(document).ready` handler of `static/index.js`: format all
timestamp cells, run the load banner routine, and wire every row's
click handlers. -/
def documentReady (tz : Int) (s : PageState) : PageState :=
  let s := { s with rows := s.rows.map (formatRowDatetime tz) }
  let s := processNotificationsOnLoadOnDelete s
  { s with rows := s.rows.map wireRowClickHandlers }

/-- States the sheet-list page can be in: freshly loaded pages, and
anything an AJAX callback of a create / sync / delete produces from a
reachable state (sync and delete need an existing row to click). -/
inductive Reachable : PageState → Prop
  | loaded (tz : Int) (rows : List Row) : Reachable (documentReady tz (initialState rows))
  | createStep {s : PageState} (tz : Int) (o : AjaxOutcome CreateResponse) :
      Reachable s → Reachable (createOnClick tz s o).1
  | syncStep {s : PageState} (tz : Int) (i : Nat) (o : AjaxOutcome SyncResponse) :
      Reachable s → i < s.rows.length → Reachable (syncSheetOnClick tz s i o).1
  | deleteStep {s : PageState} (i : Nat) (o : AjaxOutcome Unit) :
      Reachable s → i < s.rows.length → Reachable (deleteSheetOnClick s i o).1

/-! ## Settings page model (the unnamed settings script) -/

/-- An effect performed by the settings page handlers, in order. -/
inductive SettingsEffect
  | consoleLog (msg : String)
  | httpPost (url : String) (contentType : String) (body : String)
  | navigate (url : String)
deriving Repr, DecidableEq

/-- `JSON.stringify(\x7bnotify: checked\x7d)`. -/
def notifyJsonBody (checked : Bool) : String :=
  "\x7b\"notify\":" ++ (if checked then "true" else "false") ++ "\x7d"

/-- `submitOnClick` from the settings script: log, read the checkbox,
dispatch the POST (no callbacks are registered, so `requestSucceeded`
is never consulted), then navigate to the index URL. -/
def submitOnClick (url_settings_post url_index : String) (notifyChecked : Bool)
    (requestSucceeded : Bool) : List SettingsEffect :=
  [SettingsEffect.consoleLog "Going",
   SettingsEffect.consoleLog (toString notifyChecked),
   SettingsEffect.httpPost url_settings_post "application/json" (notifyJsonBody notifyChecked),
   SettingsEffect.navigate url_index]

/-- `cancelOnClick` from the settings script. -/
def cancelOnClick (url_index : String) : List SettingsEffect :=
  [SettingsEffect.consoleLog "Canceling", SettingsEffect.navigate url_index]

/-- Whether a settings effect is a network request. -/
def isHttpPost : SettingsEffect → Bool
  | SettingsEffect.httpPost _ _ _ => true
  | _ => false

/-! ## Helper lemmas: list surgery -/

theorem length_updateAt {α : Type} (l : List α) (i : Nat) (f : α → α) :
    (updateAt l i f).length = l.length := by
  induction l generalizing i with
  | nil => rfl
  | cons x xs ih =>
    cases i with
    | zero => rfl
    | succ n => simp [updateAt, ih]

theorem getElem?_updateAt {α : Type} (l : List α) (i : Nat) (f : α → α) (j : Nat) :
    (updateAt l i f)[j]? = if j = i then (l[j]?).map f else l[j]? := by
  induction l generalizing i j with
  | nil => simp [updateAt]
  | cons x xs ih =>
    cases i with
    | zero =>
      cases j with
      | zero => simp [updateAt]
      | succ m => simp [updateAt]
    | succ n =>
      cases j with
      | zero => simp [updateAt]
      | succ m => simpa [updateAt] using ih n m

theorem length_removeAt {α : Type} (l : List α) (i : Nat) (h : i < l.length) :
    (removeAt l i).length + 1 = l.length := by
  induction l generalizing i with
  | nil => simp at h
  | cons x xs ih =>
    cases i with
    | zero => rfl
    | succ n =>
      have := ih n (by simpa using h)
      simp only [removeAt, List.length_cons]
      omega

theorem getElem?_removeAt {α : Type} (l : List α) (i j : Nat) :
    (removeAt l i)[j]? = if j < i then l[j]? else l[j + 1]? := by
  induction l generalizing i j with
  | nil => simp [removeAt]
  | cons x xs ih =>
    cases i with
    | zero => simp [removeAt]
    | succ n =>
      cases j with
      | zero => simp [removeAt]
      | succ m =>
        rw [show (removeAt (x :: xs) (n + 1)) = x :: removeAt xs n from rfl]
        simp only [List.getElem?_cons_succ, ih n m]
        by_cases hmn : m < n <;> simp [hmn, Nat.succ_lt_succ_iff]

/-! ## Helper lemmas: banner routines -/

theorem pNLOD_spec (t : PageState) :
    (processNotificationsOnLoadOnDelete t).rows = t.rows ∧
    (processNotificationsOnLoadOnDelete t).notificationAdd
      = (decide (t.rows.length = 0) || t.notificationAdd) ∧
    (processNotificationsOnLoadOnDelete t).notificationEditSync
      = t.notificationEditSync := by
  unfold processNotificationsOnLoadOnDelete
  by_cases h : t.rows.length = 0 <;> simp [h]

theorem pNC_spec (t : PageState) :
    (processNotificationsOnCreate t).rows = t.rows ∧
    (processNotificationsOnCreate t).notificationAdd = false ∧
    (processNotificationsOnCreate t).notificationEditSync
      = decide (t.rows.length = 1) := by
  unfold processNotificationsOnCreate
  by_cases h : t.rows.length = 1 <;> simp [h]

theorem pNSync_spec (t : PageState) :
    (processNotificationsOnSync t).rows = t.rows ∧
    (processNotificationsOnSync t).notificationAdd = t.notificationAdd ∧
    (processNotificationsOnSync t).notificationEditSync = false :=
  ⟨rfl, rfl, rfl⟩

/-- Along every reachable page state, the add banner is visible only
when the table is empty. -/
theorem reachable_add_banner_inv {s : PageState} (h : Reachable s) :
    s.notificationAdd = true → s.rows = [] := by
  induction h with
  | loaded tz rows =>
    cases rows with
    | nil =>
      intro _
      simp [documentReady, initialState, processNotificationsOnLoadOnDelete]
    | cons r rs =>
      intro hadd
      exact absurd hadd
        (by simp [documentReady, initialState, processNotificationsOnLoadOnDelete])
  | @createStep t tz o hs ih =>
    cases o with
    | success d =>
      intro hadd
      exact absurd hadd (by simp [createOnClick, processNotificationsOnCreate])
    | failure st => exact ih
  | @syncStep t tz i o hs hlt ih =>
    cases o with
    | success d =>
      intro hadd
      have hadd' : t.notificationAdd = true := by
        simpa [syncSheetOnClick, processNotificationsOnSync] using hadd
      have h0 := ih hadd'
      simp [syncSheetOnClick, processNotificationsOnSync, h0, updateAt]
    | failure st => exact ih
  | @deleteStep t i o hs hlt ih =>
    cases o with
    | success u =>
      intro hadd
      by_cases hnil : removeAt t.rows i = []
      · simp [deleteSheetOnClick, processNotificationsOnLoadOnDelete, hnil]
      · have hadd' : t.notificationAdd = true := by
          simpa [deleteSheetOnClick, processNotificationsOnLoadOnDelete, hnil] using hadd
        have h0 := ih hadd'
        rw [h0] at hlt
        exact absurd hlt (by simp)
    | failure st => exact ih

/-! ## Claim theorems (sheet-list and settings controllers) -/

/-- Claim C1 counterexample: banner state is not a pure function of
the row count.  Load an empty table (add banner shows), create one
row (edit/sync banner shows), then delete it: zero rows remain, yet
the edit/sync banner is still shown, where the claimed pure function
demands it hidden at zero rows. -/
theorem banner_pure_function_of_count_cex :
    ((deleteSheetOnClick
        (createOnClick 0 (documentReady 0 (initialState []))
          (AjaxOutcome.success ⟨⟨"a", "t", "x", false⟩⟩)).1
        0 (AjaxOutcome.success ())).1.rows.length = 0) ∧
    ((deleteSheetOnClick
        (createOnClick 0 (documentReady 0 (initialState []))
          (AjaxOutcome.success ⟨⟨"a", "t", "x", false⟩⟩)).1
        0 (AjaxOutcome.success ())).1.notificationEditSync = true) := by
  decide

/-- Claim C1 (amended): each banner routine adjusts only its own
banners rather than recomputing a pure function of the row count —
the load/delete routine shows the add banner iff zero rows remain
(never hiding anything and never touching the edit/sync banner), the
create routine hides the add banner and shows the edit/sync banner
iff exactly one row exists, the sync routine hides the edit/sync
banner unconditionally — and each structural change and each
successful sync runs exactly its own routine on the updated rows. -/
theorem banner_routines_per_handler_behavior :
    (∀ t : PageState,
      (processNotificationsOnLoadOnDelete t).notificationAdd
        = (decide (t.rows.length = 0) || t.notificationAdd) ∧
      (processNotificationsOnLoadOnDelete t).notificationEditSync
        = t.notificationEditSync ∧
      (processNotificationsOnLoadOnDelete t).rows = t.rows) ∧
    (∀ t : PageState,
      (processNotificationsOnCreate t).notificationAdd = false ∧
      (processNotificationsOnCreate t).notificationEditSync
        = decide (t.rows.length = 1) ∧
      (processNotificationsOnCreate t).rows = t.rows) ∧
    (∀ t : PageState,
      (processNotificationsOnSync t).notificationAdd = t.notificationAdd ∧
      (processNotificationsOnSync t).notificationEditSync = false ∧
      (processNotificationsOnSync t).rows = t.rows) ∧
    (∀ (tz : Int) (s : PageState) (d : CreateResponse),
      (createOnClick tz s (AjaxOutcome.success d)).1
        = processNotificationsOnCreate
            { s with rows :=
                s.rows ++ [wireRowClickHandlers (formatRowDatetime tz d.row_to_insert)] }) ∧
    (∀ (s : PageState) (i : Nat),
      (deleteSheetOnClick s i (AjaxOutcome.success ())).1
        = processNotificationsOnLoadOnDelete { s with rows := removeAt s.rows i }) ∧
    (∀ (tz : Int) (s : PageState) (i : Nat) (d : SyncResponse),
      (syncSheetOnClick tz s i (AjaxOutcome.success d)).1
        = processNotificationsOnSync
            { s with rows := updateAt s.rows i (updateRowOnSync tz d) }) := by
  refine ⟨fun t => ⟨(pNLOD_spec t).2.1, (pNLOD_spec t).2.2, (pNLOD_spec t).1⟩,
    fun t => ⟨(pNC_spec t).2.1, (pNC_spec t).2.2, (pNC_spec t).1⟩,
    fun t => ⟨rfl, rfl, rfl⟩,
    fun tz s d => rfl, fun s i => rfl, fun tz s i d => rfl⟩

/-- Claim C2: after every successful delete from a reachable page
state, the clicked row is removed (the list shortens by one, entries
before the index are untouched, entries after shift down) and the
add banner is shown iff zero rows remain. -/
theorem delete_success_removes_row_add_banner_iff_empty (s : PageState) (i : Nat)
    (hr : Reachable s) (hi : i < s.rows.length) :
    (deleteSheetOnClick s i (AjaxOutcome.success ())).1.rows.length + 1
      = s.rows.length ∧
    (∀ j, (deleteSheetOnClick s i (AjaxOutcome.success ())).1.rows[j]?
      = if j < i then s.rows[j]? else s.rows[j + 1]?) ∧
    (deleteSheetOnClick s i (AjaxOutcome.success ())).1.notificationAdd
      = decide ((deleteSheetOnClick s i (AjaxOutcome.success ())).1.rows.length = 0) := by
  have hrows : (deleteSheetOnClick s i (AjaxOutcome.success ())).1.rows
      = removeAt s.rows i := by
    rw [show (deleteSheetOnClick s i (AjaxOutcome.success ())).1
      = processNotificationsOnLoadOnDelete { s with rows := removeAt s.rows i } from rfl,
      (pNLOD_spec _).1]
  refine ⟨?_, ?_, ?_⟩
  · rw [hrows]; exact length_removeAt s.rows i hi
  · intro j; rw [hrows]; exact getElem?_removeAt s.rows i j
  · rw [hrows,
      show (deleteSheetOnClick s i (AjaxOutcome.success ())).1
        = processNotificationsOnLoadOnDelete { s with rows := removeAt s.rows i } from rfl,
      (pNLOD_spec _).2.1]
    by_cases hlen : (removeAt s.rows i).length = 0
    · simp [hlen]
    · have hadd : s.notificationAdd = false := by
        cases hsa : s.notificationAdd
        · rfl
        · have h0 := reachable_add_banner_inv hr hsa
          rw [h0] at hi
          exact absurd hi (by simp)
      simp [hlen, hadd]

/-- Claim C2 witness: concrete successful delete of the only row of a
freshly loaded one-row page. -/
theorem delete_success_removes_row_add_banner_iff_empty_witness :
    (deleteSheetOnClick (documentReady 0 (initialState [⟨"a", "t", "x", false⟩])) 0
      (AjaxOutcome.success ())).1.rows.length + 1
      = (documentReady 0 (initialState [⟨"a", "t", "x", false⟩])).rows.length :=
  (delete_success_removes_row_add_banner_iff_empty _ 0
    (Reachable.loaded 0 [⟨"a", "t", "x", false⟩]) (by decide)).1

/-- Claim C3: a successful create appends exactly one new row at the
end (pre-existing rows unchanged), the appended row has a formatted
timestamp and wired handlers (other attributes untouched), the add
banner ends hidden, and the edit/sync banner ends shown iff exactly
one row exists after insertion. -/
theorem create_success_appends_row_and_sets_banners (tz : Int) (s : PageState)
    (d : CreateResponse) :
    (createOnClick tz s (AjaxOutcome.success d)).1.rows
      = s.rows ++ [wireRowClickHandlers (formatRowDatetime tz d.row_to_insert)] ∧
    (createOnClick tz s (AjaxOutcome.success d)).1.rows.length = s.rows.length + 1 ∧
    (∀ r : Row, (wireRowClickHandlers (formatRowDatetime tz r)).utcDatetimeText
      = convertToLocalDateTime tz r.utcDatetimeText) ∧
    (∀ r : Row, (wireRowClickHandlers (formatRowDatetime tz r)).wired = true) ∧
    (∀ r : Row, (wireRowClickHandlers (formatRowDatetime tz r)).ssheetId = r.ssheetId) ∧
    (∀ r : Row, (wireRowClickHandlers (formatRowDatetime tz r)).sheetTitle = r.sheetTitle) ∧
    (createOnClick tz s (AjaxOutcome.success d)).1.notificationAdd = false ∧
    (createOnClick tz s (AjaxOutcome.success d)).1.notificationEditSync
      = decide ((createOnClick tz s (AjaxOutcome.success d)).1.rows.length = 1) := by
  have hrows : (createOnClick tz s (AjaxOutcome.success d)).1.rows
      = s.rows ++ [wireRowClickHandlers (formatRowDatetime tz d.row_to_insert)] := by
    rw [show (createOnClick tz s (AjaxOutcome.success d)).1
      = processNotificationsOnCreate
          { s with rows :=
              s.rows ++ [wireRowClickHandlers (formatRowDatetime tz d.row_to_insert)] }
      from rfl, (pNC_spec _).1]
  refine ⟨hrows, by rw [hrows]; simp, fun r => rfl, fun r => rfl, fun r => rfl,
    fun r => rfl, ?_, ?_⟩
  · rw [show (createOnClick tz s (AjaxOutcome.success d)).1
      = processNotificationsOnCreate
          { s with rows :=
              s.rows ++ [wireRowClickHandlers (formatRowDatetime tz d.row_to_insert)] }
      from rfl]
    exact (pNC_spec _).2.1
  · rw [hrows,
      show (createOnClick tz s (AjaxOutcome.success d)).1
        = processNotificationsOnCreate
            { s with rows :=
                s.rows ++ [wireRowClickHandlers (formatRowDatetime tz d.row_to_insert)] }
        from rfl, (pNC_spec _).2.2]

/-- Claim C4: a successful sync rewrites only the targeted row — its
timestamp cell becomes the local-converted response datetime, its
title is replaced iff the response carries one, its other attributes
and every other row are untouched — and the edit/sync banner ends
hidden while the add banner is unchanged. -/
theorem sync_success_updates_only_target_row (tz : Int) (s : PageState) (i : Nat)
    (d : SyncResponse) :
    (∀ j, (syncSheetOnClick tz s i (AjaxOutcome.success d)).1.rows[j]?
      = if j = i then (s.rows[j]?).map (updateRowOnSync tz d) else s.rows[j]?) ∧
    (∀ r, (updateRowOnSync tz d r).utcDatetimeText
      = convertToLocalDateTime tz d.datetime) ∧
    (∀ r, (updateRowOnSync tz d r).sheetTitle
      = (match d.title with | some t => t | none => r.sheetTitle)) ∧
    (∀ r, (updateRowOnSync tz d r).ssheetId = r.ssheetId) ∧
    (∀ r, (updateRowOnSync tz d r).wired = r.wired) ∧
    (syncSheetOnClick tz s i (AjaxOutcome.success d)).1.rows.length = s.rows.length ∧
    (syncSheetOnClick tz s i (AjaxOutcome.success d)).1.notificationEditSync = false ∧
    (syncSheetOnClick tz s i (AjaxOutcome.success d)).1.notificationAdd
      = s.notificationAdd := by
  refine ⟨fun j => getElem?_updateAt s.rows i (updateRowOnSync tz d) j,
    fun r => ?_, fun r => ?_, fun r => ?_, fun r => ?_,
    length_updateAt s.rows i (updateRowOnSync tz d), rfl, rfl⟩
  · cases ht : d.title <;> simp [updateRowOnSync, ht]
  · cases ht : d.title <;> simp [updateRowOnSync, ht]
  · cases ht : d.title <;> simp [updateRowOnSync, ht]
  · cases ht : d.title <;> simp [updateRowOnSync, ht]

/-- Claim C5: the HTTP error mapping — 401 reloads the page with no
alert; 403, 404 and 400 alert their specific messages; every other
status alerts the generic message; every non-401 status produces
exactly one alert. -/
theorem sheet_access_error_status_mapping :
    informUserOfSheetAccessError 401 = UserEvent.reloadPage ∧
    informUserOfSheetAccessError 403
      = UserEvent.alertMessage "You are not authorized to modify this sheet." ∧
    informUserOfSheetAccessError 404
      = UserEvent.alertMessage "Sheet was not found." ∧
    informUserOfSheetAccessError 400
      = UserEvent.alertMessage
        "Sheet formatted incorrectly. Make sure there are no blank rows and the first row is a header." ∧
    (∀ code : Nat, code ≠ 401 → code ≠ 403 → code ≠ 404 → code ≠ 400 →
      informUserOfSheetAccessError code
        = UserEvent.alertMessage "Could not perform operation.") ∧
    (∀ code : Nat, code ≠ 401 →
      ∃ msg, informUserOfSheetAccessError code = UserEvent.alertMessage msg) := by
  refine ⟨by decide, by decide, by decide, by decide, ?_, ?_⟩
  · intro c h1 h2 h3 h4
    simp [informUserOfSheetAccessError, h1, h2, h3, h4]
  · intro c h1
    unfold informUserOfSheetAccessError
    rw [if_neg h1]
    exact ⟨_, rfl⟩

/-- Claim C5 witness: status 999 produces the generic alert. -/
theorem sheet_access_error_status_mapping_witness :
    informUserOfSheetAccessError 999
      = UserEvent.alertMessage "Could not perform operation." :=
  sheet_access_error_status_mapping.2.2.2.2.1 999 (by decide) (by decide) (by decide)
    (by decide)

/-- Claim C6: when a create, sync or delete fails with a non-401
status, the handler raises exactly one alert and returns the page
state unchanged — rows, row attributes and both banners are exactly
the pre-request state. -/
theorem sheet_ops_failure_leaves_state_unchanged (s : PageState) (status : Nat)
    (h : status ≠ 401) :
    ∃ msg,
      informUserOfSheetAccessError status = UserEvent.alertMessage msg ∧
      (∀ tz : Int, createOnClick tz s (AjaxOutcome.failure status)
        = (s, some (UserEvent.alertMessage msg))) ∧
      (∀ (tz : Int) (i : Nat), syncSheetOnClick tz s i (AjaxOutcome.failure status)
        = (s, some (UserEvent.alertMessage msg))) ∧
      (∀ i : Nat, deleteSheetOnClick s i (AjaxOutcome.failure status)
        = (s, some (UserEvent.alertMessage msg))) := by
  obtain ⟨msg, hm⟩ : ∃ msg, informUserOfSheetAccessError status
      = UserEvent.alertMessage msg := by
    unfold informUserOfSheetAccessError
    rw [if_neg h]
    exact ⟨_, rfl⟩
  refine ⟨msg, hm, fun tz => ?_, fun tz i => ?_, fun i => ?_⟩
  · rw [show createOnClick tz s (AjaxOutcome.failure status)
      = (s, some (informUserOfSheetAccessError status)) from rfl, hm]
  · rw [show syncSheetOnClick tz s i (AjaxOutcome.failure status)
      = (s, some (informUserOfSheetAccessError status)) from rfl, hm]
  · rw [show deleteSheetOnClick s i (AjaxOutcome.failure status)
      = (s, some (informUserOfSheetAccessError status)) from rfl, hm]

/-- Claim C6 witness: a failed delete with status 404 on a one-row
page leaves the state unchanged and alerts. -/
theorem sheet_ops_failure_leaves_state_unchanged_witness :
    ∃ msg,
      informUserOfSheetAccessError 404 = UserEvent.alertMessage msg ∧
      (∀ tz : Int, createOnClick tz ⟨[⟨"a", "t", "x", true⟩], false, true⟩
          (AjaxOutcome.failure 404)
        = (⟨[⟨"a", "t", "x", true⟩], false, true⟩, some (UserEvent.alertMessage msg))) ∧
      (∀ (tz : Int) (i : Nat), syncSheetOnClick tz
          ⟨[⟨"a", "t", "x", true⟩], false, true⟩ i (AjaxOutcome.failure 404)
        = (⟨[⟨"a", "t", "x", true⟩], false, true⟩, some (UserEvent.alertMessage msg))) ∧
      (∀ i : Nat, deleteSheetOnClick ⟨[⟨"a", "t", "x", true⟩], false, true⟩ i
          (AjaxOutcome.failure 404)
        = (⟨[⟨"a", "t", "x", true⟩], false, true⟩, some (UserEvent.alertMessage msg))) :=
  sheet_ops_failure_leaves_state_unchanged ⟨[⟨"a", "t", "x", true⟩], false, true⟩ 404
    (by decide)

/-- Claim C7: settings submit logs, reads the checkbox at click time,
dispatches exactly one POST whose JSON body is the notify boolean,
and navigates to the index URL last, with a trace independent of the
request outcome; cancel navigates with no network call. -/
theorem settings_submit_and_cancel_effects (up ui : String) (c o1 o2 : Bool) :
    submitOnClick up ui c o1 = submitOnClick up ui c o2 ∧
    (submitOnClick up ui c o1).filter isHttpPost
      = [SettingsEffect.httpPost up "application/json" (notifyJsonBody c)] ∧
    (submitOnClick up ui c o1).getLast? = some (SettingsEffect.navigate ui) ∧
    notifyJsonBody true = "\x7b\"notify\":true\x7d" ∧
    notifyJsonBody false = "\x7b\"notify\":false\x7d" ∧
    cancelOnClick ui
      = [SettingsEffect.consoleLog "Canceling", SettingsEffect.navigate ui] ∧
    (cancelOnClick ui).filter isHttpPost = [] := by
  refine ⟨rfl, rfl, rfl, by decide, by decide, rfl, rfl⟩

/-- Claim C9: the post-delete banner routine never hides a banner and
never touches the edit/sync banner; in particular a successful
delete leaving at least one row changes neither banner. -/
theorem delete_nonempty_preserves_banners (s : PageState) (i : Nat)
    (h : 1 ≤ (removeAt s.rows i).length) :
    (deleteSheetOnClick s i (AjaxOutcome.success ())).1.notificationAdd
      = s.notificationAdd ∧
    (deleteSheetOnClick s i (AjaxOutcome.success ())).1.notificationEditSync
      = s.notificationEditSync ∧
    (∀ t : PageState, (processNotificationsOnLoadOnDelete t).notificationEditSync
      = t.notificationEditSync) ∧
    (∀ t : PageState, t.notificationAdd = true →
      (processNotificationsOnLoadOnDelete t).notificationAdd = true) := by
  have hlen : ¬ (removeAt s.rows i).length = 0 := by omega
  refine ⟨?_, ?_, fun t => (pNLOD_spec t).2.2, fun t ht => ?_⟩
  · rw [show (deleteSheetOnClick s i (AjaxOutcome.success ())).1
      = processNotificationsOnLoadOnDelete { s with rows := removeAt s.rows i } from rfl,
      (pNLOD_spec _).2.1]
    simp [hlen]
  · rw [show (deleteSheetOnClick s i (AjaxOutcome.success ())).1
      = processNotificationsOnLoadOnDelete { s with rows := removeAt s.rows i } from rfl,
      (pNLOD_spec _).2.2]
  · rw [(pNLOD_spec t).2.1, ht]
    simp

/-- Claim C9 witness: deleting the first of two rows leaves the add
banner hidden. -/
theorem delete_nonempty_preserves_banners_witness :
    (deleteSheetOnClick ⟨[⟨"a", "t", "x", true⟩, ⟨"b", "u", "y", true⟩], false, true⟩ 0
      (AjaxOutcome.success ())).1.notificationAdd = false := by
  have h := delete_nonempty_preserves_banners
    ⟨[⟨"a", "t", "x", true⟩, ⟨"b", "u", "y", true⟩], false, true⟩ 0 (by decide)
  rw [h.1]

/-- Claim C10: the edit/sync banner is never shown by the page-load
handler, a successful sync (which hides it unconditionally), a
successful delete, or any failed operation; only a successful create
shows it, exactly when the resulting row count is one. -/
theorem edit_sync_banner_shown_only_by_create :
    (∀ (tz : Int) (rows : List Row),
      (documentReady tz (initialState rows)).notificationEditSync = false) ∧
    (∀ (tz : Int) (s : PageState) (i : Nat) (d : SyncResponse),
      (syncSheetOnClick tz s i (AjaxOutcome.success d)).1.notificationEditSync
        = false) ∧
    (∀ (s : PageState) (i : Nat),
      (deleteSheetOnClick s i (AjaxOutcome.success ())).1.notificationEditSync
        = s.notificationEditSync) ∧
    (∀ (tz : Int) (s : PageState) (d : CreateResponse),
      (createOnClick tz s (AjaxOutcome.success d)).1.notificationEditSync
        = decide ((createOnClick tz s (AjaxOutcome.success d)).1.rows.length = 1)) ∧
    (∀ (tz : Int) (s : PageState) (st : Nat),
      (createOnClick tz s (AjaxOutcome.failure st)).1 = s) ∧
    (∀ (tz : Int) (s : PageState) (i st : Nat),
      (syncSheetOnClick tz s i (AjaxOutcome.failure st)).1 = s) ∧
    (∀ (s : PageState) (i st : Nat),
      (deleteSheetOnClick s i (AjaxOutcome.failure st)).1 = s) := by
  refine ⟨?_, fun tz s i d => rfl, ?_, ?_, fun tz s st => rfl, fun tz s i st => rfl,
    fun s i st => rfl⟩
  · intro tz rows
    show (processNotificationsOnLoadOnDelete _).notificationEditSync = false
    rw [(pNLOD_spec _).2.2]
    rfl
  · intro s i
    show (processNotificationsOnLoadOnDelete _).notificationEditSync = _
    exact (pNLOD_spec _).2.2
  · intro tz s d
    have hrows : (createOnClick tz s (AjaxOutcome.success d)).1.rows
        = s.rows ++ [wireRowClickHandlers (formatRowDatetime tz d.row_to_insert)] := by
      rw [show (createOnClick tz s (AjaxOutcome.success d)).1
        = processNotificationsOnCreate
            { s with rows :=
                s.rows ++ [wireRowClickHandlers (formatRowDatetime tz d.row_to_insert)] }
        from rfl, (pNC_spec _).1]
    rw [hrows,
      show (createOnClick tz s (AjaxOutcome.success d)).1
        = processNotificationsOnCreate
            { s with rows :=
                s.rows ++ [wireRowClickHandlers (formatRowDatetime tz d.row_to_insert)] }
        from rfl, (pNC_spec _).2.2]

/-! ## Helper lemmas: the Gregorian calendar -/

theorem daysInMonth_pos (y m : Nat) : 1 ≤ daysInMonth y m := by
  unfold daysInMonth
  split
  · split <;> omega
  · split <;> omega

theorem daysInMonth_le (y m : Nat) : daysInMonth y m ≤ 31 := by
  unfold daysInMonth
  split
  · split <;> omega
  · split <;> omega

theorem daysBeforeMonth_succ (y m : Nat) (h : 1 ≤ m) :
    daysBeforeMonth y (m + 1) = daysBeforeMonth y m + daysInMonth y m := by
  cases m with
  | zero => omega
  | succ k => rfl

theorem daysInYear_eq (y : Nat) :
    daysInYear y = if isLeapYear y then 366 else 365 := by
  cases h : isLeapYear y <;>
    simp [daysInYear, daysBeforeMonth, daysInMonth, h]

theorem daysBeforeYear_ge (y : Nat) (h : 1 ≤ y) : 365 ≤ daysBeforeYear y := by
  cases y with
  | zero => omega
  | succ z =>
    have h1 : daysBeforeYear (z + 1) = daysBeforeYear z + daysInYear z := rfl
    have h2 := daysInYear_eq z
    cases hl : isLeapYear z <;> simp [hl] at h2 <;> omega

theorem dayNumber_nextDay (d : CivilDate) (h : ValidDate d) :
    dayNumber (nextDay d) = dayNumber d + 1 := by
  obtain ⟨h1, h2, h3, h4⟩ := h
  unfold nextDay
  by_cases hd : d.day < daysInMonth d.year d.month
  · simp only [hd, if_pos, dayNumber]
    omega
  · have hday : d.day = daysInMonth d.year d.month := by omega
    by_cases hm : d.month < 12
    · simp only [hd, hm, if_neg, if_pos, ite_false, ite_true, dayNumber]
      rw [daysBeforeMonth_succ d.year d.month h1]
      have := daysInMonth_pos d.year d.month
      omega
    · have hm12 : d.month = 12 := by omega
      simp only [hd, hm, if_neg, ite_false, dayNumber]
      have e1 : daysBeforeYear (d.year + 1) = daysBeforeYear d.year + daysInYear d.year := rfl
      have e2 : daysInYear d.year
          = daysBeforeMonth d.year 12 + daysInMonth d.year 12 := rfl
      have e3 : daysBeforeMonth (d.year + 1) 1 = 0 := rfl
      have := daysInMonth_pos d.year 12
      rw [hm12] at hday ⊢
      omega

theorem validDate_nextDay (d : CivilDate) (h : ValidDate d) : ValidDate (nextDay d) := by
  obtain ⟨h1, h2, h3, h4⟩ := h
  unfold nextDay
  by_cases hd : d.day < daysInMonth d.year d.month
  · simp only [hd, if_pos, ValidDate]
    exact ⟨h1, h2, by omega, by omega⟩
  · by_cases hm : d.month < 12
    · have := daysInMonth_pos d.year (d.month + 1)
      simp only [hd, hm, if_neg, if_pos, ite_false, ite_true, ValidDate]
      exact ⟨by omega, by omega, by omega, by omega⟩
    · have := daysInMonth_pos (d.year + 1) 1
      simp only [hd, hm, if_neg, ite_false, ValidDate]
      exact ⟨by omega, by omega, by omega, by omega⟩

theorem nextDay_year_le (d : CivilDate) : (nextDay d).year ≤ d.year + 1 := by
  unfold nextDay
  split
  · exact Nat.le_succ _
  · split
    · exact Nat.le_succ _
    · exact Nat.le_refl _

theorem prevDay_year_le (d : CivilDate) : (prevDay d).year ≤ d.year := by
  unfold prevDay
  split
  · exact Nat.le_refl _
  · split
    · exact Nat.le_refl _
    · split
      · exact Nat.le_refl _
      · exact Nat.sub_le _ _

theorem prevDay_spec (d : CivilDate) (h : ValidDate d) (hpos : 1 ≤ dayNumber d) :
    ValidDate (prevDay d) ∧ dayNumber (prevDay d) + 1 = dayNumber d := by
  obtain ⟨hm1, hm2, hd1, hd2⟩ := h
  unfold prevDay
  by_cases hd : 1 < d.day
  · simp only [hd, if_pos, ValidDate, dayNumber]
    exact ⟨⟨hm1, hm2, by omega, by omega⟩, by omega⟩
  · have hday : d.day = 1 := by omega
    by_cases hm : 1 < d.month
    · have hpos2 := daysInMonth_pos d.year (d.month - 1)
      have hsucc := daysBeforeMonth_succ d.year (d.month - 1) (by omega)
      rw [show (d.month - 1) + 1 = d.month from by omega] at hsucc
      simp only [hd, hm, if_neg, if_pos, ite_false, ite_true, ValidDate, dayNumber]
      exact ⟨⟨by omega, by omega, by omega, by omega⟩, by omega⟩
    · have hmm : d.month = 1 := by omega
      by_cases hy : d.year = 0
      · exfalso
        unfold dayNumber at hpos
        rw [hmm, hy] at hpos
        simp [daysBeforeMonth, daysBeforeYear] at hpos
        omega
      · obtain ⟨z, hz⟩ : ∃ z, d.year = z + 1 := ⟨d.year - 1, by omega⟩
        have e1 : daysBeforeYear (z + 1) = daysBeforeYear z + daysInYear z := rfl
        have e2 : daysInYear z = daysBeforeMonth z 12 + daysInMonth z 12 := rfl
        have e3 : daysInMonth z 12 = 31 := rfl
        have e4 : ∀ w, daysBeforeMonth w 1 = 0 := fun _ => rfl
        simp only [hd, hm, hy, if_neg, ite_false, ValidDate, dayNumber]
        refine ⟨⟨by omega, by omega, by omega, by rw [show d.year - 1 = z from by omega, e3]⟩, ?_⟩
        rw [hz, hmm]
        rw [show z + 1 - 1 = z from by omega]
        simp only [e4]
        omega

theorem applyTimes_nextDay_spec (k : Nat) (d : CivilDate) (h : ValidDate d) :
    ValidDate (applyTimes nextDay k d) ∧
    dayNumber (applyTimes nextDay k d) = dayNumber d + k := by
  induction k generalizing d with
  | zero => exact ⟨h, rfl⟩
  | succ n ih =>
    have hv := validDate_nextDay d h
    obtain ⟨ih1, ih2⟩ := ih (nextDay d) hv
    refine ⟨ih1, ?_⟩
    rw [show applyTimes nextDay (n + 1) d = applyTimes nextDay n (nextDay d) from rfl,
      ih2, dayNumber_nextDay d h]
    omega

theorem applyTimes_prevDay_spec (k : Nat) (d : CivilDate) (h : ValidDate d)
    (hk : k ≤ dayNumber d) :
    ValidDate (applyTimes prevDay k d) ∧
    dayNumber (applyTimes prevDay k d) + k = dayNumber d := by
  induction k generalizing d with
  | zero => exact ⟨h, rfl⟩
  | succ n ih =>
    have h1 : 1 ≤ dayNumber d := by omega
    obtain ⟨pv, pd⟩ := prevDay_spec d h h1
    obtain ⟨ih1, ih2⟩ := ih (prevDay d) pv (by omega)
    refine ⟨ih1, ?_⟩
    rw [show applyTimes prevDay (n + 1) d = applyTimes prevDay n (prevDay d) from rfl]
    omega

theorem shiftDays_spec (d : CivilDate) (n : Int) (h : ValidDate d)
    (hn : 0 ≤ (dayNumber d : Int) + n) :
    ValidDate (shiftDays d n) ∧
    ((dayNumber (shiftDays d n) : Int) = (dayNumber d : Int) + n) := by
  unfold shiftDays
  by_cases h0 : 0 ≤ n
  · rw [if_pos h0]
    obtain ⟨v, e⟩ := applyTimes_nextDay_spec n.toNat d h
    exact ⟨v, by omega⟩
  · rw [if_neg h0]
    have hk : (-n).toNat ≤ dayNumber d := by omega
    obtain ⟨v, e⟩ := applyTimes_prevDay_spec (-n).toNat d h hk
    exact ⟨v, by omega⟩

theorem addMinutesToFields_spec (f : CivilDateTime) (k : Int) (h : ValidDT f)
    (hk : 0 ≤ (minutesFromEpoch f : Int) + k) :
    ValidDT (addMinutesToFields f k) ∧
    ((minutesFromEpoch (addMinutesToFields f k) : Int)
      = (minutesFromEpoch f : Int) + k) := by
  obtain ⟨hd, hh, hm⟩ := h
  set total : Int := ((60 * f.hour + f.minute : Nat) : Int) + k with htot
  have hdm := Int.ediv_add_emod total 1440
  have hnn : 0 ≤ total % 1440 := Int.emod_nonneg total (by norm_num)
  have hlt : total % 1440 < 1440 := Int.emod_lt_of_pos total (by norm_num)
  have hred : addMinutesToFields f k
      = ⟨shiftDays f.date (total / 1440), (total % 1440).toNat / 60,
          (total % 1440).toNat % 60⟩ := rfl
  have hmf : minutesFromEpoch f = 1440 * dayNumber f.date + 60 * f.hour + f.minute := rfl
  have hsd : 0 ≤ (dayNumber f.date : Int) + total / 1440 := by omega
  obtain ⟨vd, ed⟩ := shiftDays_spec f.date (total / 1440) hd hsd
  rw [hred]
  have hmf2 : minutesFromEpoch
      ⟨shiftDays f.date (total / 1440), (total % 1440).toNat / 60,
        (total % 1440).toNat % 60⟩
      = 1440 * dayNumber (shiftDays f.date (total / 1440))
        + 60 * ((total % 1440).toNat / 60) + (total % 1440).toNat % 60 := rfl
  have hhour : (total % 1440).toNat / 60 ≤ 23 := by omega
  have hmin : (total % 1440).toNat % 60 ≤ 59 := by omega
  refine ⟨⟨vd, hhour, hmin⟩, ?_⟩
  rw [hmf2]
  omega

theorem addMinutesToFields_zero (f : CivilDateTime) (h : ValidDT f) :
    addMinutesToFields f 0 = f := by
  obtain ⟨hd, hh, hm⟩ := h
  set total : Int := ((60 * f.hour + f.minute : Nat) : Int) + 0 with htot
  have hnn : (0 : Int) ≤ total := by omega
  have hlt : total < 1440 := by omega
  have h1 : total / 1440 = 0 := by omega
  have h2 : total % 1440 = total := by omega
  have hred : addMinutesToFields f 0
      = ⟨shiftDays f.date (total / 1440), (total % 1440).toNat / 60,
          (total % 1440).toNat % 60⟩ := rfl
  rw [hred, h1, h2]
  have h3 : shiftDays f.date 0 = f.date := rfl
  rw [h3]
  have h4 : total.toNat = 60 * f.hour + f.minute := by omega
  rw [h4]
  have h5 : (60 * f.hour + f.minute) / 60 = f.hour := by omega
  have h6 : (60 * f.hour + f.minute) % 60 = f.minute := by omega
  rw [h5, h6]

theorem addMinutesToFields_year_le (f : CivilDateTime) (k : Int) (hh : f.hour ≤ 23)
    (hm : f.minute ≤ 59) (hk : k.natAbs ≤ 1440) :
    (addMinutesToFields f k).date.year ≤ f.date.year + 1 := by
  set total : Int := ((60 * f.hour + f.minute : Nat) : Int) + k with htot
  have hdm := Int.ediv_add_emod total 1440
  have hnn : 0 ≤ total % 1440 := Int.emod_nonneg total (by norm_num)
  have hlt : total % 1440 < 1440 := Int.emod_lt_of_pos total (by norm_num)
  have hD : total / 1440 = -1 ∨ total / 1440 = 0 ∨ total / 1440 = 1 := by omega
  have hred : (addMinutesToFields f k).date = shiftDays f.date (total / 1440) := rfl
  rw [hred]
  rcases hD with h | h | h <;> rw [h]
  · rw [show shiftDays f.date (-1) = prevDay f.date from rfl]
    exact Nat.le_succ_of_le (prevDay_year_le f.date)
  · rw [show shiftDays f.date 0 = f.date from rfl]
    exact Nat.le_succ _
  · rw [show shiftDays f.date 1 = nextDay f.date from rfl]
    exact nextDay_year_le f.date

/-! ## Helper lemmas: digits and the fixed textual format -/

theorem digitVal_digitChar (n : Nat) (h : n ≤ 9) : digitVal (digitChar n) = some n := by
  interval_cases n <;> decide

theorem digitChar_toNat (n : Nat) (h : n ≤ 9) : (digitChar n).toNat = 48 + n := by
  interval_cases n <;> decide

theorem digitChar_digitVal {c : Char} {n : Nat} (h : digitVal c = some n) :
    digitChar n = c ∧ n ≤ 9 := by
  unfold digitVal at h
  split at h
  · next hc =>
    obtain ⟨hc1, hc2⟩ := hc
    have hn : n = c.toNat - 48 := by
      have := Option.some.inj h
      omega
    subst hn
    refine ⟨?_, by omega⟩
    unfold digitChar
    rw [show 48 + (c.toNat - 48) = c.toNat from by omega]
    exact Char.ofNat_toNat c
  · exact absurd h (by simp)

theorem parse2_spec {a b : Char} {n : Nat} (h : parse2 a b = some n) :
    n ≤ 99 ∧ pad2 n = [a, b] := by
  unfold parse2 at h
  cases ha : digitVal a with
  | none => rw [ha] at h; simp at h
  | some x =>
    cases hb : digitVal b with
    | none => rw [ha, hb] at h; simp at h
    | some y =>
      rw [ha, hb] at h
      simp only [Option.some.injEq] at h
      obtain ⟨hca, hxa⟩ := digitChar_digitVal ha
      obtain ⟨hcb, hxb⟩ := digitChar_digitVal hb
      subst h
      refine ⟨by omega, ?_⟩
      unfold pad2
      rw [show (10 * x + y) / 10 = x from by omega,
        show (10 * x + y) % 10 = y from by omega, hca, hcb]

theorem parse2_pad2 (n : Nat) (h : n ≤ 99) :
    parse2 (digitChar (n / 10)) (digitChar (n % 10)) = some n := by
  unfold parse2
  rw [digitVal_digitChar _ (by omega), digitVal_digitChar _ (by omega)]
  simp only [Option.some.injEq]
  omega

theorem parse4_spec {a b c d : Char} {n : Nat} (h : parse4 a b c d = some n) :
    n ≤ 9999 ∧ pad4 n = [a, b, c, d] := by
  unfold parse4 at h
  cases ha : digitVal a with
  | none => rw [ha] at h; simp at h
  | some w =>
    cases hb : digitVal b with
    | none => rw [ha, hb] at h; simp at h
    | some x =>
      cases hc : digitVal c with
      | none => rw [ha, hb, hc] at h; simp at h
      | some y =>
        cases hd : digitVal d with
        | none => rw [ha, hb, hc, hd] at h; simp at h
        | some z =>
          rw [ha, hb, hc, hd] at h
          simp only [Option.some.injEq] at h
          obtain ⟨hca, hxa⟩ := digitChar_digitVal ha
          obtain ⟨hcb, hxb⟩ := digitChar_digitVal hb
          obtain ⟨hcc, hxc⟩ := digitChar_digitVal hc
          obtain ⟨hcd, hxd⟩ := digitChar_digitVal hd
          subst h
          refine ⟨by omega, ?_⟩
          unfold pad4
          rw [show (1000 * w + 100 * x + 10 * y + z) / 1000 = w from by omega,
            show (1000 * w + 100 * x + 10 * y + z) / 100 % 10 = x from by omega,
            show (1000 * w + 100 * x + 10 * y + z) / 10 % 10 = y from by omega,
            show (1000 * w + 100 * x + 10 * y + z) % 10 = z from by omega,
            hca, hcb, hcc, hcd]

theorem parse4_pad4 (n : Nat) (h : n ≤ 9999) :
    parse4 (digitChar (n / 1000)) (digitChar (n / 100 % 10)) (digitChar (n / 10 % 10))
      (digitChar (n % 10)) = some n := by
  unfold parse4
  rw [digitVal_digitChar _ (by omega), digitVal_digitChar _ (by omega),
    digitVal_digitChar _ (by omega), digitVal_digitChar _ (by omega)]
  simp only [Option.some.injEq]
  omega

theorem formatFields_data (yr mo da ho mi : Nat) :
    (formatFields ⟨⟨yr, mo, da⟩, ho, mi⟩).data
      = [digitChar (mo / 10), digitChar (mo % 10), '-',
         digitChar (da / 10), digitChar (da % 10), '-',
         digitChar (yr / 1000), digitChar (yr / 100 % 10), digitChar (yr / 10 % 10),
         digitChar (yr % 10), ' ',
         digitChar (ho / 10), digitChar (ho % 10), ':',
         digitChar (mi / 10), digitChar (mi % 10)] := rfl

theorem allowedChar_digitChar (n : Nat) (h : n ≤ 9) :
    ((48 ≤ (digitChar n).toNat && (digitChar n).toNat ≤ 57) || digitChar n = '-'
      || digitChar n = ' ' || digitChar n = ':') = true := by
  rw [digitChar_toNat n h]
  have e : (decide (48 ≤ 48 + n) && decide (48 + n ≤ 57)) = true := by
    rw [Bool.and_eq_true, decide_eq_true_eq, decide_eq_true_eq]
    omega
  rw [e]
  simp

theorem parseDateTime_spec {s : String} {f : CivilDateTime}
    (h : parseDateTime s = some f) :
    ValidDT f ∧ f.date.year ≤ 9999 ∧ formatFields f = s := by
  unfold parseDateTime at h
  split at h
  case h_2 => exact absurd h (by simp)
  case h_1 m1 m2 c1 d1 d2 c2 y1 y2 y3 y4 c3 hr1 hr2 c4 n1 n2 heq =>
    split at h
    case isFalse => exact absurd h (by simp)
    case isTrue hsep =>
      obtain ⟨hs1, hs2, hs3, hs4⟩ := hsep
      cases hpm : parse2 m1 m2 with
      | none => rw [hpm] at h; exact absurd h (by simp)
      | some mo =>
      cases hpd : parse2 d1 d2 with
      | none => rw [hpm, hpd] at h; exact absurd h (by simp)
      | some da =>
      cases hpy : parse4 y1 y2 y3 y4 with
      | none => rw [hpm, hpd, hpy] at h; exact absurd h (by simp)
      | some yr =>
      cases hph : parse2 hr1 hr2 with
      | none => rw [hpm, hpd, hpy, hph] at h; exact absurd h (by simp)
      | some ho =>
      cases hpn : parse2 n1 n2 with
      | none => rw [hpm, hpd, hpy, hph, hpn] at h; exact absurd h (by simp)
      | some mi =>
      rw [hpm, hpd, hpy, hph, hpn] at h
      have h' : (if 1 ≤ mo ∧ mo ≤ 12 ∧ 1 ≤ da ∧ da ≤ daysInMonth yr mo ∧ ho ≤ 23 ∧ mi ≤ 59
          then some (⟨⟨yr, mo, da⟩, ho, mi⟩ : CivilDateTime) else none) = some f := h
      split at h'
      case isFalse => exact absurd h' (by simp)
      case isTrue hg =>
        obtain ⟨hg1, hg2, hg3, hg4, hg5, hg6⟩ := hg
        injection h' with h''
        subst h''
        obtain ⟨hb1, he1⟩ := parse2_spec hpm
        obtain ⟨hb2, he2⟩ := parse2_spec hpd
        obtain ⟨hb3, he3⟩ := parse4_spec hpy
        obtain ⟨hb4, he4⟩ := parse2_spec hph
        obtain ⟨hb5, he5⟩ := parse2_spec hpn
        refine ⟨⟨⟨hg1, hg2, hg3, hg4⟩, hg5, hg6⟩, hb3, ?_⟩
        apply String.ext
        rw [heq]
        show pad2 mo ++ ['-'] ++ pad2 da ++ ['-'] ++ pad4 yr ++ [' '] ++ pad2 ho
          ++ [':'] ++ pad2 mi = _
        rw [he1, he2, he3, he4, he5, hs1, hs2, hs3, hs4]
        simp

theorem parseDateTime_formatFields (f : CivilDateTime) (h : ValidDT f)
    (hy : f.date.year ≤ 9999) : parseDateTime (formatFields f) = some f := by
  obtain ⟨⟨yr, mo, da⟩, ho, mi⟩ := f
  obtain ⟨⟨h1, h2, h3, h4⟩, hh, hm⟩ := h
  dsimp only at h1 h2 h3 h4 hh hm hy
  have hdim := daysInMonth_le yr mo
  have e1 : parse2 (digitChar (mo / 10)) (digitChar (mo % 10)) = some mo :=
    parse2_pad2 mo (by omega)
  have e2 : parse2 (digitChar (da / 10)) (digitChar (da % 10)) = some da :=
    parse2_pad2 da (by omega)
  have e3 : parse4 (digitChar (yr / 1000)) (digitChar (yr / 100 % 10))
      (digitChar (yr / 10 % 10)) (digitChar (yr % 10)) = some yr :=
    parse4_pad4 yr (by omega)
  have e4 : parse2 (digitChar (ho / 10)) (digitChar (ho % 10)) = some ho :=
    parse2_pad2 ho (by omega)
  have e5 : parse2 (digitChar (mi / 10)) (digitChar (mi % 10)) = some mi :=
    parse2_pad2 mi (by omega)
  unfold parseDateTime
  rw [formatFields_data yr mo da ho mi]
  simp only [e1, e2, e3, e4, e5]
  simp [h1, h2, h3, h4, hh, hm]

theorem hasNoTzMarker_formatFields (f : CivilDateTime) (h : ValidDT f)
    (hy : f.date.year ≤ 9999) : hasNoTzMarker (formatFields f) = true := by
  obtain ⟨⟨yr, mo, da⟩, ho, mi⟩ := f
  obtain ⟨⟨h1, h2, h3, h4⟩, hh, hm⟩ := h
  dsimp only at h1 h2 h3 h4 hh hm hy
  have hdim := daysInMonth_le yr mo
  unfold hasNoTzMarker
  rw [formatFields_data yr mo da ho mi, List.all_eq_true]
  intro c hc
  simp only [List.mem_cons, List.not_mem_nil, or_false] at hc
  rcases hc with rfl | rfl | rfl | rfl | rfl | rfl | rfl | rfl | rfl | rfl | rfl | rfl
    | rfl | rfl | rfl | rfl
  all_goals first
  | decide
  | exact allowedChar_digitChar _ (by omega)

/-- Claim C8: for every string in the fixed format `MM-DD-YYYY HH:mm`,
`convertToLocalDateTime` interprets it as UTC and renders the same
instant in the viewer's local zone in the same format: with the
viewer's zone at UTC (offset 0) it is the identity, hence idempotent;
and for any realistic offset (here up to ±24h, away from the extreme
ends of the 4-digit year range) the output parses back to fields
denoting exactly the input instant shifted by the offset, and carries
no time-zone marker. -/
theorem convertToLocalDateTime_utc_roundtrip (s : String) (f : CivilDateTime)
    (hp : parseDateTime s = some f) :
    convertToLocalDateTime 0 s = s ∧
    convertToLocalDateTime 0 (convertToLocalDateTime 0 s)
      = convertToLocalDateTime 0 s ∧
    (∀ tz : Int, 1 ≤ f.date.year → f.date.year ≤ 9998 → tz.natAbs ≤ 1440 →
      ∃ g : CivilDateTime,
        parseDateTime (convertToLocalDateTime tz s) = some g ∧
        (minutesFromEpoch g : Int) = (minutesFromEpoch f : Int) + tz ∧
        hasNoTzMarker (convertToLocalDateTime tz s) = true) := by
  obtain ⟨hv, hy, hfmt⟩ := parseDateTime_spec hp
  have hid : convertToLocalDateTime 0 s = s := by
    unfold convertToLocalDateTime
    rw [hp]
    show formatFields (addMinutesToFields f 0) = s
    rw [addMinutesToFields_zero f hv]
    exact hfmt
  refine ⟨hid, by rw [hid]; exact hid, ?_⟩
  intro tz h1y h9y htz
  have hmfe_lb : 1440 ≤ (minutesFromEpoch f : Int) := by
    have e : minutesFromEpoch f = 1440 * dayNumber f.date + 60 * f.hour + f.minute := rfl
    have e2 : dayNumber f.date = daysBeforeYear f.date.year
        + daysBeforeMonth f.date.year f.date.month + (f.date.day - 1) := rfl
    have e3 := daysBeforeYear_ge f.date.year h1y
    omega
  obtain ⟨hvg, hmeq⟩ := addMinutesToFields_spec f tz hv (by omega)
  have hyg : (addMinutesToFields f tz).date.year ≤ 9999 := by
    have := addMinutesToFields_year_le f tz hv.2.1 hv.2.2 htz
    omega
  have hconv : convertToLocalDateTime tz s = formatFields (addMinutesToFields f tz) := by
    unfold convertToLocalDateTime
    rw [hp]
  refine ⟨addMinutesToFields f tz, ?_, hmeq, ?_⟩
  · rw [hconv]
    exact parseDateTime_formatFields _ hvg hyg
  · rw [hconv]
    exact hasNoTzMarker_formatFields _ hvg hyg

/-- Claim C8 witness: the concrete timestamp `01-02-0005 10:00` is a
fixed point at offset 0, and shifting by one hour preserves the
denoted instant. -/
theorem convertToLocalDateTime_utc_roundtrip_witness :
    convertToLocalDateTime 0 "01-02-0005 10:00" = "01-02-0005 10:00" ∧
    (∃ g : CivilDateTime,
      parseDateTime (convertToLocalDateTime 60 "01-02-0005 10:00") = some g ∧
      (minutesFromEpoch g : Int)
        = (minutesFromEpoch (⟨⟨5, 1, 2⟩, 10, 0⟩ : CivilDateTime) : Int) + 60 ∧
      hasNoTzMarker (convertToLocalDateTime 60 "01-02-0005 10:00") = true) := by
  have h := convertToLocalDateTime_utc_roundtrip "01-02-0005 10:00" ⟨⟨5, 1, 2⟩, 10, 0⟩
    (by decide)
  exact ⟨h.1, h.2.2 60 (by decide) (by decide) (by decide)⟩
